import Mathlib

/-! Verification of the derived-event and notification engine of the lab
equipment lending dashboard (src/components/ActivityFeed.tsx and
src/components/NotificationCenter.tsx). The embedding is shallow: timestamps
are integer milliseconds since the epoch (the value `Date.getTime()` yields
for a parsed timestamp string), optional record fields are `Option`s, and the
stateful React pieces (`loadNotifications` writing component state,
`markAsRead`, `markAllAsRead`) become explicit functions from the previous
list state to the next. -/

namespace LabLending

/-- Role carried by the current user (`auth.getCurrentUser().role`). -/
inductive Role where
  | admin
  | student
deriving DecidableEq

/-- Current user as returned by the auth accessor. -/
structure User where
  id : String
  role : Role
  displayName : String
deriving DecidableEq

/-- Status of a borrow request (`BorrowRequest.status`). -/
inductive Status where
  | pending
  | approved
  | returned
  | rejected
  | overdue
deriving DecidableEq

/-- Priority level shared by activity items and notifications. -/
inductive Priority where
  | low
  | medium
  | high
deriving DecidableEq

/-- A borrow-request record as read from the repository snapshot
(`storage.getRequests()`). Date-valued fields are parsed timestamps; the
optional ones are `none` when the underlying field is absent. -/
structure BorrowRequest where
  id : String
  studentId : String
  studentName : String
  componentName : String
  quantity : Nat
  status : Status
  requestDate : Int
  approvedDate : Option Int := none
  approvedBy : Option String := none
  returnedDate : Option Int := none
  dueDate : Option Int := none
  adminNotes : Option String := none
deriving DecidableEq

/-- One day in milliseconds, `1000 * 3600 * 24`. -/
def dayMs : Int := 1000 * 3600 * 24

/-- Stand-in for JavaScript's locale-dependent `Date.toLocaleDateString`:
the exact rendering is irrelevant to every property below, so the timestamp
is rendered as its decimal value. -/
def toLocaleDateString (t : Int) : String := toString t

/-! ## ActivityFeed -/

/-- Kind of a derived activity item (`ActivityItem.type`). -/
inductive AKind where
  | request
  | approval
  | checkout
  | return'
  | rejection
deriving DecidableEq

/-- A derived activity record (the `ActivityItem` interface of
ActivityFeed.tsx). -/
structure ActivityItem where
  id : String
  type : AKind
  title : String
  description : String
  timestamp : Int
  user : String
  component : String
  status : String
  priority : Priority
deriving DecidableEq

/-- The submission item every request pushes (ActivityFeed.tsx lines 59-69). -/
def requestItemOf (request : BorrowRequest) : ActivityItem :=
  { id := "request_" ++ request.id
    type := AKind.request
    title := "Component Request Submitted"
    description := request.studentName ++ " requested " ++ request.componentName ++
      " (" ++ toString request.quantity ++ " units)"
    timestamp := request.requestDate
    user := request.studentName
    component := request.componentName
    status := "pending"
    priority := Priority.medium }

/-- The approval item pushed for an approved request with `approvedDate = d`
(ActivityFeed.tsx lines 73-83). -/
def approvalItemOf (request : BorrowRequest) (d : Int) : ActivityItem :=
  { id := "approval_" ++ request.id
    type := AKind.approval
    title := "Request Approved"
    description := request.componentName ++ " request approved for " ++ request.studentName
    timestamp := d
    user := request.approvedBy.getD "Admin"
    component := request.componentName
    status := "approved"
    priority := Priority.high }

/-- The checkout item pushed right after the approval item, with the same
`approvedDate` timestamp (ActivityFeed.tsx lines 85-95). -/
def checkoutItemOf (request : BorrowRequest) (d : Int) : ActivityItem :=
  { id := "checkout_" ++ request.id
    type := AKind.checkout
    title := "Component Checked Out"
    description := request.studentName ++ " checked out " ++ request.componentName ++
      " (" ++ toString request.quantity ++ " units)"
    timestamp := d
    user := request.studentName
    component := request.componentName
    status := "approved"
    priority := Priority.medium }

/-- The return item pushed for a returned request with `returnedDate = d`
(ActivityFeed.tsx lines 99-109). -/
def returnItemOf (request : BorrowRequest) (d : Int) : ActivityItem :=
  { id := "return_" ++ request.id
    type := AKind.return'
    title := "Component Returned"
    description := request.studentName ++ " returned " ++ request.componentName ++
      " (" ++ toString request.quantity ++ " units)"
    timestamp := d
    user := request.studentName
    component := request.componentName
    status := "returned"
    priority := Priority.medium }

/-- The rejection item pushed for a rejected request (ActivityFeed.tsx lines
113-123). -/
def rejectionItemOf (request : BorrowRequest) : ActivityItem :=
  { id := "rejection_" ++ request.id
    type := AKind.rejection
    title := "Request Rejected"
    description := request.componentName ++ " request rejected for " ++ request.studentName
    timestamp := request.requestDate
    user := "Admin"
    component := request.componentName
    status := "rejected"
    priority := Priority.low }

/-- Activity records pushed for a single request by the `requests.forEach`
body of `loadActivities` (ActivityFeed.tsx lines 57-129), in push order:
always the submission item; approval then checkout when the request is
approved and has an `approvedDate`; a return item when returned with a
`returnedDate`; a rejection item when rejected. -/
def activityItemsFor (request : BorrowRequest) : List ActivityItem :=
  [requestItemOf request] ++
    (match request.status, request.approvedDate with
      | Status.approved, some d => [approvalItemOf request d, checkoutItemOf request d]
      | _, _ => []) ++
    (match request.status, request.returnedDate with
      | Status.returned, some d => [returnItemOf request d]
      | _, _ => []) ++
    (if request.status = Status.rejected then [rejectionItemOf request] else [])

/-- All activity items synthesized over the request snapshot, in push order. -/
def synthActivities (requests : List BorrowRequest) : List ActivityItem :=
  requests.flatMap activityItemsFor

/-- Order computed by the comparator at ActivityFeed.tsx line 130,
`(a, b) => new Date(b.timestamp).getTime() - new Date(a.timestamp).getTime()`:
`a` may be placed before `b` exactly when the comparator value is ≤ 0,
i.e. newest first. -/
def actBefore (a b : ActivityItem) : Prop := b.timestamp ≤ a.timestamp

instance : DecidableRel actBefore := fun a b =>
  inferInstanceAs (Decidable (b.timestamp ≤ a.timestamp))

instance : IsTotal ActivityItem actBefore := ⟨fun a b => le_total b.timestamp a.timestamp⟩

instance : IsTrans ActivityItem actBefore := ⟨fun _ _ _ h h' => le_trans h' h⟩

/-- Filter selector of the activity feed. -/
inductive AFilter where
  | all
  | requests
  | approvals
  | returns
deriving DecidableEq

/-- The `switch (filter)` predicate of ActivityFeed.tsx lines 134-141. -/
def activityMatchesFilter (filter : AFilter) (activity : ActivityItem) : Bool :=
  match filter with
  | AFilter.requests => activity.type == AKind.request
  | AFilter.approvals => activity.type == AKind.approval || activity.type == AKind.checkout
  | AFilter.returns => activity.type == AKind.return'
  | AFilter.all => true

/-- Default value of the `maxItems` prop of `ActivityFeed`. -/
def defaultMaxItems : Nat := 10

/-- Body of `loadActivities` (ActivityFeed.tsx lines 52-147) as a pure
function of the repository snapshot, the selected filter and the `maxItems`
prop: synthesize the item list, sort it newest-first (ES2019
`Array.prototype.sort` is a stable sort, and `List.insertionSort` with the
same total comparator computes the same list), filter it unless the filter is
`all`, and keep the first `maxItems`. -/
def deriveActivities (requests : List BorrowRequest) (filter : AFilter) (maxItems : Nat) :
    List ActivityItem :=
  let activityItems := synthActivities requests
  let sorted := activityItems.insertionSort actBefore
  let filteredActivities :=
    if filter = AFilter.all then sorted else sorted.filter (activityMatchesFilter filter)
  filteredActivities.take maxItems

/-! ## NotificationCenter -/

/-- Kind of a derived notification (`Notification.type`). -/
inductive NKind where
  | checkout
  | return'
  | approval
  | rejection
  | reminder
deriving DecidableEq

/-- A derived notification (the `Notification` interface of
NotificationCenter.tsx). `read` is the only field mutated after creation. -/
structure Notification where
  id : String
  type : NKind
  title : String
  message : String
  timestamp : Int
  read : Bool
  requestId : Option String := none
  priority : Priority
deriving DecidableEq

/-- Predicate of the `overdueRequests` filter (NotificationCenter.tsx lines
58-63): status approved and `new Date(r.dueDate) < new Date()`. A missing
`dueDate` parses to an invalid date, whose comparison is false; the
comparison the code performs is at millisecond granularity. -/
def isOverdue (now : Int) (r : BorrowRequest) : Bool :=
  r.status == Status.approved &&
    match r.dueDate with
    | some dueDate => decide (dueDate < now)
    | none => false

/-- Predicate of the `recentCheckouts` filter (NotificationCenter.tsx lines
94-100): approved, `approvedDate` present and strictly after `now` minus one
day (`yesterday.setDate(yesterday.getDate() - 1)`, modelled as 24 hours). -/
def isRecentCheckout (now : Int) (r : BorrowRequest) : Bool :=
  r.status == Status.approved &&
    match r.approvedDate with
    | some approvedDate => decide (now - dayMs < approvedDate)
    | none => false

/-- Predicate of the `recentReturns` filter (NotificationCenter.tsx lines
116-122): returned, `returnedDate` present and strictly after `now` minus one
day. -/
def isRecentReturn (now : Int) (r : BorrowRequest) : Bool :=
  r.status == Status.returned &&
    match r.returnedDate with
    | some returnedDate => decide (now - dayMs < returnedDate)
    | none => false

/-- Pending-approval notification pushed for the admin (NotificationCenter.tsx
lines 67-78). -/
def pendingNotificationOf (request : BorrowRequest) : Notification :=
  { id := "pending_" ++ request.id
    type := NKind.approval
    title := "New Component Request"
    message := request.studentName ++ " requested " ++ request.componentName ++
      " (" ++ toString request.quantity ++ " units)"
    timestamp := request.requestDate
    read := false
    requestId := some request.id
    priority := Priority.high }

/-- Overdue reminder pushed for the admin (NotificationCenter.tsx lines
81-92). The `overdueRequests` filter guarantees `dueDate` is present, so the
`getD 0` defaults are never exercised there. -/
def overdueNotificationOf (request : BorrowRequest) : Notification :=
  { id := "overdue_" ++ request.id
    type := NKind.reminder
    title := "Overdue Component"
    message := request.studentName ++ " has overdue " ++ request.componentName ++
      " (Due: " ++ toLocaleDateString (request.dueDate.getD 0) ++ ")"
    timestamp := request.dueDate.getD 0
    read := false
    requestId := some request.id
    priority := Priority.high }

/-- Recent-checkout notification pushed for the admin (NotificationCenter.tsx
lines 102-113); the filter guarantees `approvedDate` is present. -/
def checkoutNotificationOf (request : BorrowRequest) : Notification :=
  { id := "checkout_" ++ request.id
    type := NKind.checkout
    title := "Component Checked Out"
    message := request.studentName ++ " checked out " ++ request.componentName ++
      " (" ++ toString request.quantity ++ " units)"
    timestamp := request.approvedDate.getD 0
    read := false
    requestId := some request.id
    priority := Priority.medium }

/-- Recent-return notification pushed for the admin (NotificationCenter.tsx
lines 124-135); the filter guarantees `returnedDate` is present. -/
def returnNotificationOf (request : BorrowRequest) : Notification :=
  { id := "return_" ++ request.id
    type := NKind.return'
    title := "Component Returned"
    message := request.studentName ++ " returned " ++ request.componentName ++
      " (" ++ toString request.quantity ++ " units)"
    timestamp := request.returnedDate.getD 0
    read := false
    requestId := some request.id
    priority := Priority.medium }

/-- Admin branch of `loadNotifications` (NotificationCenter.tsx lines 55-138):
pending-approval notifications, then overdue reminders, then the checkouts
and returns of the last 24 hours, in push order. -/
def adminNotifications (requests : List BorrowRequest) (now : Int) : List Notification :=
  let pendingRequests := requests.filter (fun r => r.status == Status.pending)
  let overdueRequests := requests.filter (isOverdue now)
  let recentCheckouts := requests.filter (isRecentCheckout now)
  let recentReturns := requests.filter (isRecentReturn now)
  pendingRequests.map pendingNotificationOf ++
    overdueRequests.map overdueNotificationOf ++
    recentCheckouts.map checkoutNotificationOf ++
    recentReturns.map returnNotificationOf

/-- Integer rendering of `Math.ceil(x / dayMs)` for the millisecond
difference `x`: the ceiling of the exact quotient, computed as the negated
flooring division of the negation. -/
def ceilDay (x : Int) : Int := -((-x).fdiv dayMs)

/-- Notifications a single owned request pushes in the student branch
(NotificationCenter.tsx lines 144-189), in push order: an approval notice
when approved with an `approvedDate`, a rejection notice when rejected, and a
due-date reminder when approved and
`Math.ceil((dueDate - now) / dayMs)` lies in [0, 2]. A missing `dueDate`
makes `daysDiff` NaN, which passes neither bound, so no reminder is pushed
then. The reminder's timestamp is `new Date().toISOString()`, i.e. `now`. -/
def studentNotificationsFor (now : Int) (request : BorrowRequest) : List Notification :=
  (match request.status, request.approvedDate with
    | Status.approved, some approvedDate =>
      [{ id := "approved_" ++ request.id
         type := NKind.approval
         title := "Request Approved!"
         message := "Your request for " ++ request.componentName ++ " has been approved. " ++
           request.adminNotes.getD "Please collect from the lab."
         timestamp := approvedDate
         read := false
         requestId := some request.id
         priority := Priority.high }]
    | _, _ => []) ++
    (if request.status = Status.rejected then
      [{ id := "rejected_" ++ request.id
         type := NKind.rejection
         title := "Request Rejected"
         message := "Your request for " ++ request.componentName ++ " was rejected. " ++
           request.adminNotes.getD "Please contact admin for details."
         timestamp := request.requestDate
         read := false
         requestId := some request.id
         priority := Priority.medium }]
      else []) ++
    (if request.status = Status.approved then
      match request.dueDate with
      | some dueDate =>
        let daysDiff := ceilDay (dueDate - now)
        if daysDiff ≤ 2 ∧ 0 ≤ daysDiff then
          [{ id := "reminder_" ++ request.id
             type := NKind.reminder
             title := "Return Reminder"
             message := request.componentName ++ " is due " ++
               (if daysDiff = 0 then "today"
                else "in " ++ toString daysDiff ++ " day" ++ (if 1 < daysDiff then "s" else ""))
             timestamp := now
             read := false
             requestId := some request.id
             priority := if daysDiff = 0 then Priority.high else Priority.medium }]
        else []
      | none => []
      else [])

/-- Student branch of `loadNotifications` (NotificationCenter.tsx lines
140-190): only the requests owned by the current user contribute. -/
def studentNotifications (currentUser : User) (requests : List BorrowRequest) (now : Int) :
    List Notification :=
  let userRequests := requests.filter (fun r => r.studentId == currentUser.id)
  userRequests.flatMap (studentNotificationsFor now)

/-- The role-branched synthesis of `loadNotifications`, before sorting and
truncation. -/
def synthNotifications (currentUser : User) (requests : List BorrowRequest) (now : Int) :
    List Notification :=
  match currentUser.role with
  | Role.admin => adminNotifications requests now
  | Role.student => studentNotifications currentUser requests now

/-- Priority ranks of the notification comparator (`priorityOrder`,
NotificationCenter.tsx line 195). -/
def priorityOrder : Priority → Nat
  | Priority.high => 3
  | Priority.medium => 2
  | Priority.low => 1

/-- Order computed by the notification comparator (NotificationCenter.tsx
lines 194-200): `a` may be placed before `b` exactly when the comparator
value is ≤ 0 — higher priority rank first, and newest first within one
rank. -/
def notifBefore (a b : Notification) : Prop :=
  priorityOrder b.priority < priorityOrder a.priority ∨
    (priorityOrder a.priority = priorityOrder b.priority ∧ b.timestamp ≤ a.timestamp)

instance : DecidableRel notifBefore := fun a b =>
  inferInstanceAs (Decidable (priorityOrder b.priority < priorityOrder a.priority ∨
    (priorityOrder a.priority = priorityOrder b.priority ∧ b.timestamp ≤ a.timestamp)))

instance : IsTotal Notification notifBefore := by
  constructor
  intro a b
  rcases lt_trichotomy (priorityOrder a.priority) (priorityOrder b.priority) with h | h | h
  · exact Or.inr (Or.inl h)
  · rcases le_total a.timestamp b.timestamp with ht | ht
    · exact Or.inr (Or.inr ⟨h.symm, ht⟩)
    · exact Or.inl (Or.inr ⟨h, ht⟩)
  · exact Or.inl (Or.inl h)

instance : IsTrans Notification notifBefore := by
  constructor
  intro a b c hab hbc
  rcases hab with h₁ | ⟨h₁, t₁⟩ <;> rcases hbc with h₂ | ⟨h₂, t₂⟩
  · exact Or.inl (lt_trans h₂ h₁)
  · exact Or.inl (h₂ ▸ h₁)
  · exact Or.inl (by omega)
  · exact Or.inr ⟨h₁.trans h₂, le_trans t₂ t₁⟩

/-- One run of `loadNotifications` (NotificationCenter.tsx lines 50-203) as a
state update on the component's notification list: with no current user the
early return leaves the list as it was; otherwise the synthesized
notifications are sorted by the priority-then-recency comparator (ES2019
`Array.prototype.sort` is stable, so `List.insertionSort` with the same total
comparator computes the same list) and the first 20 replace the previous
list. -/
def loadNotifications (currentUser : Option User) (requests : List BorrowRequest) (now : Int)
    (prev : List Notification) : List Notification :=
  match currentUser with
  | none => prev
  | some u => ((synthNotifications u requests now).insertionSort notifBefore).take 20

/-- The notification list derived from scratch (the component state starts
empty): the pure `deriveNotifications(requests, currentUser, now)` contract
of the spec. -/
def deriveNotifications (requests : List BorrowRequest) (currentUser : Option User) (now : Int) :
    List Notification :=
  loadNotifications currentUser requests now []

/-- The `markAsRead` state update (NotificationCenter.tsx lines 205-209). -/
def markAsRead (notificationId : String) (prev : List Notification) : List Notification :=
  prev.map (fun n => if n.id == notificationId then { n with read := true } else n)

/-- The `markAllAsRead` state update (NotificationCenter.tsx lines 211-213). -/
def markAllAsRead (prev : List Notification) : List Notification :=
  prev.map (fun n => { n with read := true })

/-! ## Sample records for concrete evaluations -/

/-- Sample admin user. -/
def adminUser : User := { id := "a1", role := Role.admin, displayName := "Admin" }

/-- Sample student user. -/
def alice : User := { id := "s1", role := Role.student, displayName := "Alice" }

/-- Sample pending request (the spec's §8 scenario). -/
def reqPending : BorrowRequest :=
  { id := "r1", studentId := "s1", studentName := "Alice",
    componentName := "Oscilloscope", quantity := 1, status := Status.pending,
    requestDate := 0 }

/-- Sample approved request whose due date (08:00 of epoch day 0) falls
earlier on the same calendar day as the evaluation instant used below
(noon of epoch day 0). -/
def reqApproved : BorrowRequest :=
  { id := "r2", studentId := "s1", studentName := "Alice",
    componentName := "Multimeter", quantity := 2, status := Status.approved,
    requestDate := 0, approvedDate := some 1000, approvedBy := some "Admin",
    dueDate := some 28800000 }

/-! ## Helper lemmas -/

/-- Appending behind a fixed prefix is injective: the deterministic
identifier schemes `kind_requestId` collide only when the request ids
collide. -/
theorem string_append_cancel {p s t : String} : p ++ s = p ++ t ↔ s = t := by
  constructor
  · intro h
    have hd : (p ++ s).data = (p ++ t).data := by rw [h]
    rw [String.data_append, String.data_append] at hd
    exact String.ext (List.append_cancel_left hd)
  · intro h
    rw [h]

/-- Counting over a request list with pairwise-distinct ids: a predicate that
requires the request's id to equal `r.id` fires at most at `r` itself. -/
theorem countP_id_filter {requests : List BorrowRequest} {r : BorrowRequest}
    (hr : r ∈ requests) (hnodup : (requests.map BorrowRequest.id).Nodup)
    (q : BorrowRequest → Bool) :
    requests.countP (fun req => (req.id == r.id) && q req) = if q r then 1 else 0 := by
  induction requests with
  | nil => cases hr
  | cons a l ih =>
    rw [List.map_cons, List.nodup_cons] at hnodup
    obtain ⟨ha, hl⟩ := hnodup
    rw [List.countP_cons]
    rcases List.mem_cons.mp hr with rfl | hrl
    · have hzero : l.countP (fun req => (req.id == r.id) && q req) = 0 := by
        rw [List.countP_eq_zero]
        intro b hb
        simp only [Bool.and_eq_true, beq_iff_eq, not_and]
        intro hid _
        exact ha (hid ▸ List.mem_map.mpr ⟨b, hb, rfl⟩)
      rw [hzero]
      simp
    · have hne : a.id ≠ r.id := fun hid => ha (hid ▸ List.mem_map.mpr ⟨r, hrl, rfl⟩)
      rw [ih hrl hl]
      simp [hne]

/-- Counting an item predicate over the whole per-request synthesis when the
request ids are distinct and the predicate can only fire inside `r`'s own
block. -/
theorem countP_flatMap_single {α : Type} (p : α → Bool) (f : BorrowRequest → List α)
    {requests : List BorrowRequest} {r : BorrowRequest}
    (hr : r ∈ requests) (hnodup : (requests.map BorrowRequest.id).Nodup)
    (hother : ∀ req : BorrowRequest, req.id ≠ r.id → (f req).countP p = 0) :
    (requests.flatMap f).countP p = (f r).countP p := by
  induction requests with
  | nil => cases hr
  | cons a l ih =>
    rw [List.map_cons, List.nodup_cons] at hnodup
    obtain ⟨ha, hl⟩ := hnodup
    rw [List.flatMap_cons, List.countP_append]
    rcases List.mem_cons.mp hr with rfl | hrl
    · have hzero : (l.flatMap f).countP p = 0 := by
        rw [List.countP_eq_zero]
        intro b hb
        obtain ⟨req, hreq, hbf⟩ := List.mem_flatMap.mp hb
        have hne : req.id ≠ r.id := fun hid => ha (hid ▸ List.mem_map.mpr ⟨req, hreq, rfl⟩)
        have h0 := hother req hne
        rw [List.countP_eq_zero] at h0
        exact h0 b hbf
      rw [hzero]
      simp
    · have hne : a.id ≠ r.id := fun hid => ha (hid ▸ List.mem_map.mpr ⟨r, hrl, rfl⟩)
      rw [hother a hne, ih hrl hl]
      simp

/-! ## Claims -/

/-- C7: with no authenticated user, `deriveNotifications` yields the empty
list, for every request snapshot and every instant: no notification is
produced without identity. -/
theorem deriveNotifications_of_no_user (requests : List BorrowRequest) (now : Int) :
    deriveNotifications requests none now = [] := rfl

/-- C6: output caps — the derived activity feed never exceeds `maxItems`
(hence never 10 at the default prop value), and the derived notification
list never exceeds 20, for inputs of any size; the final `take` applies
after sorting (and, for activities, after filtering), as the definitions
of `deriveActivities` and `loadNotifications` show. -/
theorem derive_output_caps (requests : List BorrowRequest) (filter : AFilter)
    (maxItems : Nat) (currentUser : Option User) (now : Int) :
    (deriveActivities requests filter maxItems).length ≤ maxItems ∧
    (deriveActivities requests filter defaultMaxItems).length ≤ 10 ∧
    (deriveNotifications requests currentUser now).length ≤ 20 := by
  refine ⟨List.length_take_le _ _, List.length_take_le _ _, ?_⟩
  cases currentUser with
  | none => simp [deriveNotifications, loadNotifications]
  | some u => exact List.length_take_le _ _

/-- C8: derivation is idempotent: the pure activity derivation returns the
same list on identical inputs, and re-running the notification tick on the
very state it produced leaves that state unchanged (read-state aside — the
update does not depend on the previous list when a user is present, and
leaves it untouched otherwise). -/
theorem derive_idempotent (requests : List BorrowRequest) (filter : AFilter)
    (maxItems : Nat) (currentUser : Option User) (now : Int) (prev : List Notification) :
    deriveActivities requests filter maxItems = deriveActivities requests filter maxItems ∧
    loadNotifications currentUser requests now (loadNotifications currentUser requests now prev) =
      loadNotifications currentUser requests now prev := by
  refine ⟨rfl, ?_⟩
  cases currentUser <;> rfl

/-- C9: `markAsRead` sets the read flag of every notification carrying the
requested id, is the identity on the list when no notification carries it
(and, being a total function, cannot throw), and `markAllAsRead` marks every
notification of the current list read. -/
theorem markAsRead_semantics (prev : List Notification) (notificationId : String) :
    (∀ n ∈ markAsRead notificationId prev, n.id = notificationId → n.read = true) ∧
    ((∀ n ∈ prev, n.id ≠ notificationId) → markAsRead notificationId prev = prev) ∧
    (∀ n ∈ markAllAsRead prev, n.read = true) := by
  refine ⟨?_, ?_, ?_⟩
  · intro n hn hid
    obtain ⟨m, hm, rfl⟩ := List.mem_map.mp hn
    by_cases h : (m.id == notificationId) = true
    · simp [h]
    · rw [if_neg (by simpa using h)] at hid
      exact absurd hid (by simpa using h)
  · intro hall
    conv_rhs => rw [← List.map_id prev]
    refine List.map_congr_left ?_
    intro a ha
    have hne := hall a ha
    simp [hne]
  · intro n hn
    obtain ⟨m, hm, rfl⟩ := List.mem_map.mp hn
    rfl

/-- C9 witness: on a concrete list holding only the pending notification for
`reqPending`, marking an absent id is a no-op. -/
theorem markAsRead_semantics_witness :
    markAsRead "absent" [pendingNotificationOf reqPending] =
      [pendingNotificationOf reqPending] :=
  (markAsRead_semantics [pendingNotificationOf reqPending] "absent").2.1 (by decide)

/-- C10: frame property of the read-state updates: both keep the list's
length and order, and relate each notification positionally to one equal in
every field except possibly `read`; `markAsRead` moreover keeps the read
flag of every notification whose id differs from the requested one. -/
theorem markRead_frame (prev : List Notification) (notificationId : String) :
    ((markAsRead notificationId prev).length = prev.length ∧
      (markAllAsRead prev).length = prev.length) ∧
    List.Forall₂
      (fun n n' => n'.id = n.id ∧ n'.type = n.type ∧ n'.title = n.title ∧
        n'.message = n.message ∧ n'.timestamp = n.timestamp ∧
        n'.requestId = n.requestId ∧ n'.priority = n.priority ∧
        (n.id ≠ notificationId → n'.read = n.read))
      prev (markAsRead notificationId prev) ∧
    List.Forall₂
      (fun n n' => n'.id = n.id ∧ n'.type = n.type ∧ n'.title = n.title ∧
        n'.message = n.message ∧ n'.timestamp = n.timestamp ∧
        n'.requestId = n.requestId ∧ n'.priority = n.priority)
      prev (markAllAsRead prev) := by
  refine ⟨⟨by simp [markAsRead], by simp [markAllAsRead]⟩, ?_, ?_⟩
  · rw [markAsRead, List.forall₂_map_right_iff, List.forall₂_same]
    intro x hx
    by_cases h : (x.id == notificationId) = true
    · have hxid : x.id = notificationId := by simpa using h
      simp [h, hxid]
    · simp [h]
  · rw [markAllAsRead, List.forall₂_map_right_iff, List.forall₂_same]
    intro x hx
    simp

/-- C4: ordering invariant of every derived notification list: each adjacent
pair (x, y) satisfies rank x > rank y, or equal ranks and
x.timestamp ≥ y.timestamp, with high ↦ 3, medium ↦ 2, low ↦ 1 — priority
always dominates recency. -/
theorem deriveNotifications_ordering (requests : List BorrowRequest)
    (currentUser : Option User) (now : Int) :
    (deriveNotifications requests currentUser now).Chain'
      (fun x y => priorityOrder x.priority > priorityOrder y.priority ∨
        (priorityOrder x.priority = priorityOrder y.priority ∧
          x.timestamp ≥ y.timestamp)) := by
  cases currentUser with
  | none => simp [deriveNotifications, loadNotifications]
  | some u =>
    have hs : List.Sorted notifBefore
        ((synthNotifications u requests now).insertionSort notifBefore) :=
      List.sorted_insertionSort notifBefore _
    have hp : (deriveNotifications requests (some u) now).Pairwise notifBefore :=
      List.Pairwise.sublist (List.take_sublist _ _) hs
    refine List.Chain'.imp ?_ hp.chain'
    intro a b h
    exact h

/-- Unfolding `deriveActivities` at a filter other than `all`. -/
theorem deriveActivities_eq_of_ne_all (requests : List BorrowRequest) (filter : AFilter)
    (maxItems : Nat) (h : filter ≠ AFilter.all) :
    deriveActivities requests filter maxItems =
      (((synthActivities requests).insertionSort actBefore).filter
        (activityMatchesFilter filter)).take maxItems := by
  simp only [deriveActivities]
  rw [if_neg h]

/-- Unfolding `deriveActivities` at the `all` filter: nothing is filtered. -/
theorem deriveActivities_all_eq (requests : List BorrowRequest) (maxItems : Nat) :
    deriveActivities requests AFilter.all maxItems =
      ((synthActivities requests).insertionSort actBefore).take maxItems := by
  simp [deriveActivities]

/-- C5: filter semantics of the activity feed: the `requests` filter keeps
only request-kind items, the `approvals` filter keeps exactly the items of
kind approval or checkout (both kinds), the `returns` filter keeps only
return-kind items, and the `all` filter excludes nothing — the exactness
parts stated up to the final cap via the hypothesis that the synthesized
list fits `maxItems`. -/
theorem deriveActivities_filter_semantics (requests : List BorrowRequest) (maxItems : Nat)
    (hlen : (synthActivities requests).length ≤ maxItems) :
    (∀ x ∈ deriveActivities requests AFilter.requests maxItems, x.type = AKind.request) ∧
    (deriveActivities requests AFilter.approvals maxItems).Perm
      ((synthActivities requests).filter
        (fun a => a.type == AKind.approval || a.type == AKind.checkout)) ∧
    (∀ x ∈ deriveActivities requests AFilter.returns maxItems, x.type = AKind.return') ∧
    (deriveActivities requests AFilter.all maxItems).Perm (synthActivities requests) := by
  have hsort : ((synthActivities requests).insertionSort actBefore).length ≤ maxItems := by
    rw [List.length_insertionSort]
    exact hlen
  refine ⟨?_, ?_, ?_, ?_⟩
  · intro x hx
    rw [deriveActivities_eq_of_ne_all _ _ _ (by decide)] at hx
    have hx' := (List.take_sublist _ _).subset hx
    have := List.of_mem_filter hx'
    simpa [activityMatchesFilter] using this
  · rw [deriveActivities_eq_of_ne_all _ _ _ (by decide),
      List.take_of_length_le (le_trans (List.length_filter_le _ _) hsort)]
    exact List.Perm.filter _ (List.perm_insertionSort _ _)
  · intro x hx
    rw [deriveActivities_eq_of_ne_all _ _ _ (by decide)] at hx
    have hx' := (List.take_sublist _ _).subset hx
    have := List.of_mem_filter hx'
    simpa [activityMatchesFilter] using this
  · rw [deriveActivities_all_eq, List.take_of_length_le hsort]
    exact List.perm_insertionSort _ _

/-- C5 witness: at the concrete snapshot `[reqApproved]` the unfiltered feed
is a permutation of the synthesized items. -/
theorem deriveActivities_filter_semantics_witness :
    (deriveActivities [reqApproved] AFilter.all 10).Perm (synthActivities [reqApproved]) :=
  (deriveActivities_filter_semantics [reqApproved] 10 (by decide)).2.2.2

/-- Membership characterization of the per-request activity block. -/
theorem mem_activityItemsFor {a : ActivityItem} {request : BorrowRequest} :
    a ∈ activityItemsFor request ↔
      a = requestItemOf request ∨
      (∃ d, request.status = Status.approved ∧ request.approvedDate = some d ∧
        (a = approvalItemOf request d ∨ a = checkoutItemOf request d)) ∨
      (∃ d, request.status = Status.returned ∧ request.returnedDate = some d ∧
        a = returnItemOf request d) ∨
      (request.status = Status.rejected ∧ a = rejectionItemOf request) := by
  unfold activityItemsFor
  cases hst : request.status <;>
    cases had : request.approvedDate <;>
      cases hrd : request.returnedDate <;>
        simp [hst, had, hrd]

/-- C3: for every approved request with a present `approvedDate` in a
snapshot with distinct ids, the unfiltered feed (within the cap) contains
exactly one request-kind, one approval-kind and one checkout-kind item for
that request; the approval and checkout items carry the same timestamp (the
`approvedDate`), and the approval item precedes the checkout item in the
output although their timestamps tie (stability of the sort). -/
theorem approved_activity_triple (requests : List BorrowRequest) (r : BorrowRequest)
    (d : Int) (maxItems : Nat) (hr : r ∈ requests)
    (hnodup : (requests.map BorrowRequest.id).Nodup)
    (happ : r.status = Status.approved) (hd : r.approvedDate = some d)
    (hlen : (synthActivities requests).length ≤ maxItems) :
    ((deriveActivities requests AFilter.all maxItems).countP
        (fun a => a.type == AKind.request && a.id == "request_" ++ r.id) = 1 ∧
      (deriveActivities requests AFilter.all maxItems).countP
        (fun a => a.type == AKind.approval && a.id == "approval_" ++ r.id) = 1 ∧
      (deriveActivities requests AFilter.all maxItems).countP
        (fun a => a.type == AKind.checkout && a.id == "checkout_" ++ r.id) = 1) ∧
    (approvalItemOf r d).timestamp = d ∧ (checkoutItemOf r d).timestamp = d ∧
    [approvalItemOf r d, checkoutItemOf r d].Sublist
      (deriveActivities requests AFilter.all maxItems) := by
  have hout : deriveActivities requests AFilter.all maxItems =
      (synthActivities requests).insertionSort actBefore := by
    rw [deriveActivities_all_eq]
    exact List.take_of_length_le (by rw [List.length_insertionSort]; exact hlen)
  have hblock : activityItemsFor r =
      [requestItemOf r, approvalItemOf r d, checkoutItemOf r d] := by
    simp [activityItemsFor, happ, hd]
  have hother_req : ∀ req : BorrowRequest, req.id ≠ r.id →
      (activityItemsFor req).countP
        (fun a => a.type == AKind.request && a.id == "request_" ++ r.id) = 0 := by
    intro req hne
    rw [List.countP_eq_zero]
    intro a ha
    rcases mem_activityItemsFor.mp ha with rfl | ⟨e, _, _, (rfl | rfl)⟩ | ⟨e, _, _, rfl⟩ | ⟨_, rfl⟩
    · simp [requestItemOf, string_append_cancel, hne]
    · simp [approvalItemOf]
    · simp [checkoutItemOf]
    · simp [returnItemOf]
    · simp [rejectionItemOf]
  have hother_app : ∀ req : BorrowRequest, req.id ≠ r.id →
      (activityItemsFor req).countP
        (fun a => a.type == AKind.approval && a.id == "approval_" ++ r.id) = 0 := by
    intro req hne
    rw [List.countP_eq_zero]
    intro a ha
    rcases mem_activityItemsFor.mp ha with rfl | ⟨e, _, _, (rfl | rfl)⟩ | ⟨e, _, _, rfl⟩ | ⟨_, rfl⟩
    · simp [requestItemOf]
    · simp [approvalItemOf, string_append_cancel, hne]
    · simp [checkoutItemOf]
    · simp [returnItemOf]
    · simp [rejectionItemOf]
  have hother_chk : ∀ req : BorrowRequest, req.id ≠ r.id →
      (activityItemsFor req).countP
        (fun a => a.type == AKind.checkout && a.id == "checkout_" ++ r.id) = 0 := by
    intro req hne
    rw [List.countP_eq_zero]
    intro a ha
    rcases mem_activityItemsFor.mp ha with rfl | ⟨e, _, _, (rfl | rfl)⟩ | ⟨e, _, _, rfl⟩ | ⟨_, rfl⟩
    · simp [requestItemOf]
    · simp [approvalItemOf]
    · simp [checkoutItemOf, string_append_cancel, hne]
    · simp [returnItemOf]
    · simp [rejectionItemOf]
  refine ⟨⟨?_, ?_, ?_⟩, rfl, rfl, ?_⟩
  · rw [hout, List.Perm.countP_eq _ (List.perm_insertionSort _ _),
      show synthActivities requests = requests.flatMap activityItemsFor from rfl,
      countP_flatMap_single _ _ hr hnodup hother_req, hblock]
    simp [requestItemOf, approvalItemOf, checkoutItemOf]
  · rw [hout, List.Perm.countP_eq _ (List.perm_insertionSort _ _),
      show synthActivities requests = requests.flatMap activityItemsFor from rfl,
      countP_flatMap_single _ _ hr hnodup hother_app, hblock]
    simp [requestItemOf, approvalItemOf, checkoutItemOf]
  · rw [hout, List.Perm.countP_eq _ (List.perm_insertionSort _ _),
      show synthActivities requests = requests.flatMap activityItemsFor from rfl,
      countP_flatMap_single _ _ hr hnodup hother_chk, hblock]
    simp [requestItemOf, approvalItemOf, checkoutItemOf]
  · rw [hout]
    refine List.pair_sublist_insertionSort (le_refl d) ?_
    obtain ⟨s, t, hsplit⟩ := List.append_of_mem hr
    rw [show synthActivities requests = requests.flatMap activityItemsFor from rfl,
      hsplit, List.flatMap_append, List.flatMap_cons]
    have hpair : [approvalItemOf r d, checkoutItemOf r d].Sublist (activityItemsFor r) := by
      rw [hblock]
      exact List.sublist_cons_self _ _
    exact ((hpair.trans (List.sublist_append_left _ _)).trans (List.sublist_append_right _ _))

/-- C3 witness: the concrete approved request `reqApproved` in a singleton
snapshot keeps its approval item before its checkout item in the feed. -/
theorem approved_activity_triple_witness :
    [approvalItemOf reqApproved 1000, checkoutItemOf reqApproved 1000].Sublist
      (deriveActivities [reqApproved] AFilter.all 10) :=
  (approved_activity_triple [reqApproved] reqApproved 1000 10 (by decide) (by decide)
    (by decide) (by decide) (by decide)).2.2.2

/-- Unfolding the overdue predicate of the admin branch. -/
theorem isOverdue_iff {now : Int} {r : BorrowRequest} :
    isOverdue now r = true ↔
      r.status = Status.approved ∧ ∃ d, r.dueDate = some d ∧ d < now := by
  cases hdue : r.dueDate <;> simp [isOverdue, hdue]

/-- C2 (amended): for every request of a snapshot with pairwise-distinct ids,
when the synthesized set fits the 20-item cap, the admin list contains
exactly one reminder-kind notification for that request if and only if the
request is approved and its due date's timestamp is strictly before the
instant `now` — a millisecond-granularity comparison, not the whole-day one
the claim states — never more than one, and every reminder in the admin list
has priority high. -/
theorem admin_overdue_reminder (requests : List BorrowRequest) (u : User) (now : Int)
    (r : BorrowRequest) (hrole : u.role = Role.admin) (hr : r ∈ requests)
    (hnodup : (requests.map BorrowRequest.id).Nodup)
    (hlen : (synthNotifications u requests now).length ≤ 20) :
    ((deriveNotifications requests (some u) now).countP
        (fun n => n.type == NKind.reminder && n.requestId == some r.id) = 1 ↔
      r.status = Status.approved ∧ ∃ d, r.dueDate = some d ∧ d < now) ∧
    (deriveNotifications requests (some u) now).countP
        (fun n => n.type == NKind.reminder && n.requestId == some r.id) ≤ 1 ∧
    (∀ n ∈ deriveNotifications requests (some u) now,
      n.type = NKind.reminder → n.priority = Priority.high) := by
  have hsyn : synthNotifications u requests now = adminNotifications requests now := by
    unfold synthNotifications
    rw [hrole]
  have hlen' : (adminNotifications requests now).length ≤ 20 := hsyn ▸ hlen
  have hout : deriveNotifications requests (some u) now =
      (adminNotifications requests now).insertionSort notifBefore := by
    show ((synthNotifications u requests now).insertionSort notifBefore).take 20 = _
    rw [hsyn]
    exact List.take_of_length_le (by rw [List.length_insertionSort]; exact hlen')
  have hcount : (deriveNotifications requests (some u) now).countP
      (fun n => n.type == NKind.reminder && n.requestId == some r.id) =
      if isOverdue now r then 1 else 0 := by
    rw [hout, List.Perm.countP_eq _ (List.perm_insertionSort _ _)]
    simp only [adminNotifications, List.countP_append, List.countP_map]
    have h1 : List.countP
        ((fun n => n.type == NKind.reminder && n.requestId == some r.id) ∘
          pendingNotificationOf)
        (requests.filter (fun req => req.status == Status.pending)) = 0 := by
      rw [List.countP_eq_zero]
      intro a _
      simp [pendingNotificationOf]
    have h2 : List.countP
        ((fun n => n.type == NKind.reminder && n.requestId == some r.id) ∘
          overdueNotificationOf)
        (requests.filter (isOverdue now)) = if isOverdue now r then 1 else 0 := by
      rw [List.countP_filter, ← countP_id_filter hr hnodup (isOverdue now)]
      apply List.countP_congr
      intro x hx
      simp [overdueNotificationOf]
    have h3 : List.countP
        ((fun n => n.type == NKind.reminder && n.requestId == some r.id) ∘
          checkoutNotificationOf)
        (requests.filter (isRecentCheckout now)) = 0 := by
      rw [List.countP_eq_zero]
      intro a _
      simp [checkoutNotificationOf]
    have h4 : List.countP
        ((fun n => n.type == NKind.reminder && n.requestId == some r.id) ∘
          returnNotificationOf)
        (requests.filter (isRecentReturn now)) = 0 := by
      rw [List.countP_eq_zero]
      intro a _
      simp [returnNotificationOf]
    rw [h1, h2, h3, h4]
    simp
  refine ⟨?_, ?_, ?_⟩
  · rw [hcount]
    by_cases hov : isOverdue now r = true
    · rw [if_pos hov]
      simpa using isOverdue_iff.mp hov
    · rw [if_neg hov]
      have hnc : ¬(r.status = Status.approved ∧ ∃ d, r.dueDate = some d ∧ d < now) :=
        fun hcond => hov (isOverdue_iff.mpr hcond)
      simp [hnc]
  · rw [hcount]
    split <;> simp
  · intro n hn htype
    rw [hout] at hn
    have hn' := (List.mem_insertionSort _).mp hn
    simp only [adminNotifications, List.mem_append, List.mem_map] at hn'
    rcases hn' with ((⟨a, ha, rfl⟩ | ⟨a, ha, rfl⟩) | ⟨a, ha, rfl⟩) | ⟨a, ha, rfl⟩
    · simp [pendingNotificationOf] at htype
    · rfl
    · simp [checkoutNotificationOf] at htype
    · simp [returnNotificationOf] at htype

/-- C2 witness: the concrete admin snapshot `[reqApproved]` evaluated at noon
of epoch day 0 carries at most one reminder for that request. -/
theorem admin_overdue_reminder_witness :
    (deriveNotifications [reqApproved] (some adminUser) 43200000).countP
      (fun n => n.type == NKind.reminder && n.requestId == some reqApproved.id) ≤ 1 :=
  (admin_overdue_reminder [reqApproved] adminUser 43200000 reqApproved (by decide)
    (by decide) (by decide) (by decide)).2.1

/-- Rendering of the granularity the claim under test states (the code under
test is `isOverdue`): due-date windows computed as whole-day differences,
overdue meaning the due date's whole day lies strictly before `now`'s whole
day. -/
def specOverdueByDay (now dueDate : Int) : Prop :=
  dueDate.fdiv dayMs < now.fdiv dayMs

/-- C2 counterexample: at noon of epoch day 0 (`now = 43200000`), the
approved request `reqApproved` due 08:00 of the same day (`28800000`) is not
overdue at day granularity, yet the admin list carries exactly one reminder
for it: the code compares raw instants, not whole-day differences. -/
theorem admin_overdue_subday_cex :
    ¬ specOverdueByDay 43200000 28800000 ∧
    (deriveNotifications [reqApproved] (some adminUser) 43200000).countP
      (fun n => n.type == NKind.reminder && n.requestId == some "r2") = 1 := by
  constructor
  · unfold specOverdueByDay
    decide
  · decide

/-- C1 at the failing input: start from the derived admin list for a single
pending request, mark its only notification (id `pending_r1`) read, and run
the recomputation tick again on the unchanged snapshot. The synthesis again
produces the identifier `pending_r1`, but the resulting list carries it with
`read = false`: `loadNotifications` replaces the list wholesale
(`setNotifications(userNotifications.slice(0, 20))` with every synthesized
record built `read: false`) and so discards the read flag the claim — and
the spec's read-state preservation requirement — says must survive. -/
theorem loadNotifications_loses_read_state :
    (markAsRead "pending_r1" (loadNotifications (some adminUser) [reqPending] 0 [])).map
        (fun n => (n.id, n.read)) = [("pending_r1", true)] ∧
    (loadNotifications (some adminUser) [reqPending] 0
        (markAsRead "pending_r1" (loadNotifications (some adminUser) [reqPending] 0 []))).map
        (fun n => (n.id, n.read)) = [("pending_r1", false)] :=
  ⟨rfl, rfl⟩

end LabLending
